import Mathlib

/-!
Verification of the varsig envelope codec (`src/vs.rs`, `src/error.rs`,
`src/serde/de.rs`) against its natural-language specification.

The development shallowly embeds the Rust source into Lean:
* bytes are `Nat` (values < 256 where it matters), byte strings are `List Nat`;
* the external `Varuint` primitive is the standard little-endian base-128
  variable-length unsigned integer encoding;
* the external multicodec registry maps every `u64` code to a codec (with an
  `Unknown(code)` escape for unrecognized codes), so a codec is embedded as its
  numeric code and its wire form is the varuint of that code;
* the external multibase codec is modelled from its contract: a one-character
  base prefix followed by a textual rendering of the bytes, with
  `decode (encode base bytes) = (base, bytes)`;
* fallible Rust functions returning `Result` become functions into `Except`.
-/

namespace varsig

/-- Fuel-indexed little-endian base-128 varuint encoding.  The fuel only
bounds the recursion depth so the definition is structural (and therefore
kernel-computable); with fuel ≥ n it never runs out, because the argument
shrinks by a factor of 128 each step while the fuel drops by one. -/
def varuintEncodeAux : Nat → Nat → List Nat
  | 0, n => [n]
  | fuel + 1, n =>
    if n < 0x80 then [n]
    else (n % 0x80 + 0x80) :: varuintEncodeAux fuel (n / 0x80)

/-- Little-endian base-128 varuint encoding of a natural number, exactly the
external `Varuint` primitive used by `multicodec`/`multiutil`. -/
def varuintEncode (n : Nat) : List Nat :=
  varuintEncodeAux n n

/-- Little-endian base-128 varuint decoding: bytes with the high bit set are
continuation bytes.  Fails (`none`) on an empty or truncated buffer. -/
def varuintDecode : List Nat → Option (Nat × List Nat)
  | [] => none
  | b :: rest =>
    if b < 0x80 then some (b, rest)
    else
      match varuintDecode rest with
      | some (n, rest2) => some ((b - 0x80) + 0x80 * n, rest2)
      | none => none

/-- A multicodec registry entry, embedded as its numeric code.  The registry is
external; per its contract every `u64` has a codec (named entries plus an
`Unknown(code)` escape for unrecognized codes), so the embedding is the code
itself and two codecs are equal exactly when their codes are. -/
abbrev Codec := Nat

/-- numeric code of `Codec::Varsigv1` (the varsig v1 sigil `SIGILV1`) -/
def Codec.varsigv1 : Codec := 0x38

/-- numeric code of `Codec::Varsigv2` (the varsig v2 sigil `SIGILV2`);
the repository's serde tests pin this code to 57. -/
def Codec.varsigv2 : Codec := 0x39

/-- numeric code of `Codec::Ed25519Pub` (0xED) -/
def Codec.ed25519Pub : Codec := 0xED

/-- numeric code of `Codec::Raw` (0x55) -/
def Codec.raw : Codec := 0x55

/-- numeric code of `Codec::Secp256K1Pub` (0xE7) -/
def Codec.secp256K1Pub : Codec := 0xE7

/-- numeric code of `Codec::Keccak256` (0x1B) -/
def Codec.keccak256 : Codec := 0x1B

/-- numeric code of `Codec::Identity`, the zero-valued default codec -/
def Codec.identity : Codec := 0x00

/-- `Codec::encode_into`: the wire form of a codec is the varuint of its code. -/
def Codec.encode_into (c : Codec) : List Nat := varuintEncode c

/-- `Codec::try_decode_from`: read one varuint and interpret it as a registry
code.  Fails only on a malformed varuint (empty or truncated buffer); an
unrecognized code decodes to the registry's `Unknown(code)` escape, which the
embedding identifies with the code. -/
def Codec.try_decode_from (bytes : List Nat) : Option (Codec × List Nat) :=
  varuintDecode bytes

/-- `multibase::Base`: the bases the development needs.  `Base16Lower` is the
default used throughout `vs.rs`. -/
inductive Base where
  | base16Lower
  | base32Lower
  | base58Btc
  | base64
deriving DecidableEq, Repr

/-- Modelled from the spec: the multibase prefix character identifying each
base (the spec's multibase contract: "a text encoding that prefixes
base-encoded bytes with a character identifying the base used"). -/
def Base.code : Base → Char
  | .base16Lower => 'f'
  | .base32Lower => 'b'
  | .base58Btc => 'z'
  | .base64 => 'm'

/-- the sixteen lower-case hexadecimal digit characters in value order:
codes 48-57 are the decimal digits, codes 97-102 the letters a-f -/
def hexAlphabet : List Char :=
  (List.range 16).map fun n => Char.ofNat (if n < 10 then 48 + n else 87 + n)

/-- lower-case hexadecimal digit for a value < 16 -/
def hexDigit (n : Nat) : Char :=
  hexAlphabet.getD n 'f'

/-- value of a lower-case hexadecimal digit, `none` for any other character -/
def hexDigitVal (c : Char) : Option Nat :=
  hexAlphabet.indexOf? c

/-- textual rendering of a byte string: two lower-case hex digits per byte -/
def hexEncode : List Nat → List Char
  | [] => []
  | b :: rest => hexDigit (b / 16) :: hexDigit (b % 16) :: hexEncode rest

/-- inverse of `hexEncode`; fails on an odd length or a non-hex character -/
def hexDecode : List Char → Option (List Nat)
  | [] => some []
  | [_] => none
  | c1 :: c2 :: rest =>
    match hexDigitVal c1, hexDigitVal c2, hexDecode rest with
    | some h, some l, some bs => some ((16 * h + l) :: bs)
    | _, _, _ => none

/-- Modelled from the spec: `multibase::encode(base, bytes)` — the multibase
crate is external, so only its contract is embedded: the output is the base's
identifying prefix character followed by a textual rendering of the bytes.
The rendering is abstracted as lower-case hexadecimal for every base, which
satisfies everything the spec states about the collaborator (the prefix
identifies the base and decoding inverts encoding). -/
def multibaseEncode (base : Base) (bytes : List Nat) : List Char :=
  base.code :: hexEncode bytes

/-- Modelled from the spec: `multibase::decode(text)` — recover the base from
the prefix character (failing on an unrecognized prefix) and the bytes from
the textual rendering. -/
def multibaseDecode (text : List Char) : Option (Base × List Nat) :=
  match text with
  | [] => none
  | c :: rest =>
    let base :=
      if c = 'f' then some Base.base16Lower
      else if c = 'b' then some Base.base32Lower
      else if c = 'z' then some Base.base58Btc
      else if c = 'm' then some Base.base64
      else none
    match base, hexDecode rest with
    | some b, some bytes => some (b, bytes)
    | _, _ => none

/-- `crate::error::Error` (src/error.rs).  The propagated external errors
(`Fmt`, `Multibase`, `Multicodec`, `Multiutil`) carry foreign payloads that the
claims never inspect, so each is embedded as a bare constructor. -/
inductive Error where
  | fmt
  | multibase
  | multicodec
  | multiutil
  | missingSigil
  | invalidVersion (v : Nat)
  | unsupportedAlgorithm (name : String)
deriving DecidableEq, Repr

/-- The `Varsig` enum (src/vs.rs lines 16-44): `Unknown` for an unrecognized
key codec, `EdDSA` for key codec 0xED. -/
inductive Varsig where
  | unknown (sigil : Codec) (codec : Codec) (string_encoding : Base)
      (encoding : Option Codec) (signature_specific : List Codec)
      (signature : List Nat)
  | edDSA (sigil : Codec) (string_encoding : Base) (encoding : Codec)
      (signature : List Nat)
deriving DecidableEq, Repr

namespace Varsig

/-- `Varsig::sigil` -/
def sigil : Varsig → Codec
  | .unknown s _ _ _ _ _ => s
  | .edDSA s _ _ _ => s

/-- `Varsig::codec` — the `EdDSA` variant always reports `Ed25519Pub` -/
def codec : Varsig → Codec
  | .unknown _ c _ _ _ _ => c
  | .edDSA _ _ _ _ => Codec.ed25519Pub

/-- `Varsig::encoding` -/
def encoding : Varsig → Option Codec
  | .unknown _ _ _ e _ _ => e
  | .edDSA _ _ e _ => some e

/-- `Varsig::string_encoding` -/
def string_encoding : Varsig → Base
  | .unknown _ _ se _ _ _ => se
  | .edDSA _ se _ _ => se

/-- `Varsig::set_string_encoding` — the in-place mutation becomes a function
returning the updated value -/
def set_string_encoding : Varsig → Base → Varsig
  | .unknown s c _ e ss sg, b => .unknown s c b e ss sg
  | .edDSA s _ e sg, b => .edDSA s b e sg

/-- `Varsig::signature` -/
def signature : Varsig → List Nat
  | .unknown _ _ _ _ _ sg => sg
  | .edDSA _ _ _ sg => sg

/-- the signature-specific attribute codes of a value; the `EdDSA` variant has
no such field, so it reports an empty list -/
def signature_specific : Varsig → List Codec
  | .unknown _ _ _ _ ss _ => ss
  | .edDSA _ _ _ _ => []

/-- `EncodeInto for Varsig` (src/vs.rs lines 162-216): sigil, key codec,
optional encoding, attribute codes, then the raw signature bytes — no length
prefixes anywhere. -/
def encode_into : Varsig → List Nat
  | .unknown s c _ e ss sg =>
    Codec.encode_into s ++ Codec.encode_into c ++
      (match e with
       | some enc => Codec.encode_into enc
       | none => []) ++
      (ss.map Codec.encode_into).flatten ++ sg
  | .edDSA s _ e sg =>
    Codec.encode_into s ++ Codec.encode_into Codec.ed25519Pub ++
      Codec.encode_into e ++ sg

/-- `TryDecodeFrom for Varsig` (src/vs.rs lines 268-321). -/
def try_decode_from (bytes : List Nat) : Except Error (Varsig × List Nat) :=
  match Codec.try_decode_from bytes with
  | none => .error .multicodec
  | some (sigil, ptr) =>
    if sigil ≠ Codec.varsigv1 ∧ sigil ≠ Codec.varsigv2 then .error .missingSigil
    else
      match Codec.try_decode_from ptr with
      | none => .error .multicodec
      | some (codec, ptr) =>
        if codec = Codec.ed25519Pub then
          match Codec.try_decode_from ptr with
          | none => .error .multicodec
          | some (encoding, ptr) =>
            .ok (.edDSA sigil Base.base16Lower encoding ptr, ptr)
        else
          if sigil = Codec.varsigv1 then
            .ok (.unknown sigil codec Base.base16Lower none [] ptr, ptr)
          else
            match Codec.try_decode_from ptr with
            | none => .error .multicodec
            | some (encoding, ptr) =>
              .ok (.unknown sigil codec Base.base16Lower (some encoding) [] ptr, ptr)

/-- `ToString for Varsig` (src/vs.rs lines 229-234): multibase-encode the wire
bytes at the value's configured base. -/
def to_string (v : Varsig) : List Char :=
  multibaseEncode v.string_encoding v.encode_into

/-- `TryFrom<&str> for Varsig` (src/vs.rs lines 244-257): multibase-decode,
wire-decode, then record the base recovered from the text. -/
def try_from_string (s : List Char) : Except Error Varsig :=
  match multibaseDecode s with
  | some (base, v) =>
    match try_decode_from v with
    | .ok (vs, _) => .ok (vs.set_string_encoding base)
    | .error e => .error e
  | none => .error .multibase

end Varsig

/-- `ssh_key::Algorithm`: the external signature algorithm tag.  Only
`Ed25519` is matched by the source; the other constructors stand for the
remaining algorithms of the external crate. -/
inductive Algorithm where
  | ed25519
  | rsa
  | dsa
  | ecdsaP256
deriving DecidableEq, Repr

/-- `ssh_key::Algorithm::to_string` — the name the factory error reports -/
def Algorithm.name : Algorithm → String
  | .ed25519 => "ssh-ed25519"
  | .rsa => "ssh-rsa"
  | .dsa => "ssh-dss"
  | .ecdsaP256 => "ecdsa-sha2-nistp256"

/-- `ssh_key::Signature`: the external signature object consumed by the
builder factory — an algorithm tag plus raw signature bytes. -/
structure Signature where
  algorithm : Algorithm
  bytes : List Nat
deriving DecidableEq, Repr

/-- `Builder` (src/vs.rs lines 340-347); Rust's `Default` gives the
zero-valued codec for each codec field, `None` for the optional base, and
empty containers. -/
structure Builder where
  sigil : Codec := Codec.identity
  codec : Codec := Codec.identity
  string_encoding : Option Base := none
  encoding : Codec := Codec.identity
  signature_specific : List Codec := []
  signature : List Nat := []
deriving DecidableEq, Repr

namespace Builder

/-- `Builder::newv1` -/
def newv1 : Builder := { sigil := Codec.varsigv1 }

/-- `Builder::newv2` — the source initializes the sigil to `Codec::Varsigv1`
(src/vs.rs line 361), exactly as `newv1` does. -/
def newv2 : Builder := { sigil := Codec.varsigv1 }

/-- `Builder::with_codec` -/
def with_codec (b : Builder) (c : Codec) : Builder := { b with codec := c }

/-- `Builder::with_string_encoding` -/
def with_string_encoding (b : Builder) (base : Base) : Builder :=
  { b with string_encoding := some base }

/-- `Builder::with_encoding` -/
def with_encoding (b : Builder) (c : Codec) : Builder := { b with encoding := c }

/-- `Builder::with_signature_bytes` -/
def with_signature_bytes (b : Builder) (data : List Nat) : Builder :=
  { b with signature := data }

/-- `Builder::with_signature_specific` -/
def with_signature_specific (b : Builder) (data : List Codec) : Builder :=
  { b with signature_specific := data }

/-- `Builder::build` (src/vs.rs lines 397-414) -/
def build (b : Builder) : Varsig :=
  if b.codec = Codec.ed25519Pub then
    .edDSA b.sigil (b.string_encoding.getD Base.base16Lower) b.encoding
      b.signature
  else
    .unknown b.sigil b.codec (b.string_encoding.getD Base.base16Lower)
      (some b.encoding) b.signature_specific b.signature

end Builder

/-- `TryFrom<&Signature> for Varsig` (src/vs.rs lines 323-336): the builder
factory from an externally produced signature object. -/
def Varsig.try_from_signature (sig : Signature) : Except Error Varsig :=
  if sig.algorithm = Algorithm.ed25519 then
    .ok ((((Builder.newv1.with_codec Codec.ed25519Pub).with_encoding
      Codec.raw).with_signature_bytes sig.bytes).build)
  else
    .error (.unsupportedAlgorithm sig.algorithm.name)

namespace de

/-- The `Varsig` revision that `src/serde/de.rs` constructs: its
`EdDSA`/`Unknown` expressions use fields `sigil`, `msg_encoding`,
`attributes`, `signature` (and `codec` for `Unknown`) — no string-encoding
field.  The serde module is written against this revision of the type. -/
inductive VarsigDe where
  | edDSA (sigil : Codec) (msg_encoding : Codec) (signature : List Nat)
  | unknown (sigil : Codec) (codec : Codec) (msg_encoding : Option Codec)
      (attributes : List Nat) (signature : List Nat)
deriving DecidableEq, Repr

/-- the serde deserializer errors produced in `visit_map` -/
inductive DeError where
  | duplicateField (f : String)
  | missingField (f : String)
  | custom (msg : String)
deriving DecidableEq, Repr

/-- One key/value pair of the serde map being visited.  The derived field
identifier admits exactly the five declared field names, so an input map is a
list of entries of these five kinds; the payload is the value the matching
`next_value` call decodes (`u8` for version, `u64` codes, varuint attribute
codes, varbytes signature). -/
inductive Entry where
  | version (v : Nat)
  | codec (c : Nat)
  | encoding (e : Nat)
  | attributes (a : List Nat)
  | signature (s : List Nat)
deriving DecidableEq, Repr

/-- the `while let Some(key) = map.next_key()?` loop of
`VarsigVisitor::visit_map` (src/serde/de.rs lines 42-122), followed by the
missing-field checks and the final variant dispatch.  `Codec::try_from` on a
`u64` is total in the embedding (the registry's `Unknown(code)` escape), so
its error arm never fires. -/
def visitMapGo (sigil : Option Codec) (codec : Option Codec)
    (msg_encoding : Option Codec) (attributes : Option (List Nat))
    (signature : Option (List Nat)) :
    List Entry → Except DeError VarsigDe
  | [] =>
    match sigil with
    | none => .error (.missingField "version")
    | some sg =>
      match codec with
      | none => .error (.missingField "codec")
      | some c =>
        match msg_encoding with
        | none => .error (.missingField "encoding")
        | some me =>
          match attributes with
          | none => .error (.missingField "attributes")
          | some attrs =>
            match signature with
            | none => .error (.missingField "signature")
            | some sg2 =>
              if c = Codec.ed25519Pub then .ok (.edDSA sg me sg2)
              else .ok (.unknown sg c (some me) attrs sg2)
  | .version v :: rest =>
    if sigil.isSome then .error (.duplicateField "version")
    else if v = 1 then
      visitMapGo (some Codec.varsigv1) codec msg_encoding attributes
        signature rest
    else if v = 2 then
      visitMapGo (some Codec.varsigv2) codec msg_encoding attributes
        signature rest
    else .error (.custom "invlid Varsig version")
  | .codec c :: rest =>
    if codec.isSome then .error (.duplicateField "codec")
    else visitMapGo sigil (some c) msg_encoding attributes signature rest
  | .encoding e :: rest =>
    if msg_encoding.isSome then .error (.duplicateField "encoding")
    else visitMapGo sigil codec (some e) attributes signature rest
  | .attributes a :: rest =>
    if attributes.isSome then .error (.duplicateField "attributes")
    else visitMapGo sigil codec msg_encoding (some a) signature rest
  | .signature s :: rest =>
    if signature.isSome then .error (.duplicateField "signature")
    else visitMapGo sigil codec msg_encoding attributes (some s) rest

/-- `VarsigVisitor::visit_map`: the loop starting from the all-unset state -/
def visit_map (entries : List Entry) : Except DeError VarsigDe :=
  visitMapGo none none none none none entries

/-- recognizers for the five entry kinds -/
def Entry.isVersion : Entry → Bool
  | .version _ => true
  | _ => false

def Entry.isCodec : Entry → Bool
  | .codec _ => true
  | _ => false

def Entry.isEncoding : Entry → Bool
  | .encoding _ => true
  | _ => false

def Entry.isAttributes : Entry → Bool
  | .attributes _ => true
  | _ => false

def Entry.isSignature : Entry → Bool
  | .signature _ => true
  | _ => false

end de

/-- A `Varsig` value whose wire encoding survives a decode of the same layout:
the sigil is one of the two recognized sigils, an `Unknown` value has a key
codec other than the Ed25519 code and an empty attribute list, and its
payload-encoding field is absent exactly on the V1 layout (the V2 decode path
always reads one).  `EdDSA` values only need a recognized sigil. -/
def wireOk : Varsig → Bool
  | .edDSA s _ _ _ => s == Codec.varsigv1 || s == Codec.varsigv2
  | .unknown s c _ e ss _ =>
    !(c == Codec.ed25519Pub) && ss.isEmpty &&
      ((s == Codec.varsigv1 && e.isNone) || (s == Codec.varsigv2 && e.isSome))

/-! ## Lemmas about the primitives -/

theorem varuintDecode_encodeAux (fuel : Nat) :
    ∀ n rest, n ≤ fuel →
      varuintDecode (varuintEncodeAux fuel n ++ rest) = some (n, rest) := by
  induction fuel with
  | zero =>
    intro n rest hn
    have : n = 0 := Nat.le_zero.mp hn
    subst this
    simp [varuintEncodeAux, varuintDecode]
  | succ fuel ih =>
    intro n rest hn
    by_cases h : n < 0x80
    · simp [varuintEncodeAux, h, varuintDecode]
    · rw [varuintEncodeAux]
      simp only [h, if_false, List.cons_append, varuintDecode]
      have h1 : ¬ (n % 0x80 + 0x80 < 0x80) := by omega
      have h2 : n / 0x80 ≤ fuel := by
        have := Nat.div_le_self n 0x80
        have := Nat.div_lt_self (show 0 < n by omega) (show 1 < 0x80 by norm_num)
        omega
      rw [if_neg h1, ih (n / 0x80) rest h2]
      simp only [Option.some.injEq, Prod.mk.injEq, and_true]
      omega

theorem varuintDecode_encode (n : Nat) (rest : List Nat) :
    varuintDecode (varuintEncode n ++ rest) = some (n, rest) :=
  varuintDecode_encodeAux n n rest (Nat.le_refl n)

theorem varuintEncodeAux_lt (fuel : Nat) :
    ∀ n, n ≤ fuel → ∀ b ∈ varuintEncodeAux fuel n, b < 256 := by
  induction fuel with
  | zero =>
    intro n hn b hb
    have : n = 0 := Nat.le_zero.mp hn
    subst this
    simp [varuintEncodeAux] at hb
    omega
  | succ fuel ih =>
    intro n hn b hb
    by_cases h : n < 0x80
    · rw [varuintEncodeAux] at hb
      simp [h] at hb
      omega
    · rw [varuintEncodeAux] at hb
      simp only [h, if_false, List.mem_cons] at hb
      rcases hb with hb | hb
      · omega
      · have h2 : n / 0x80 ≤ fuel := by
          have := Nat.div_lt_self (show 0 < n by omega) (show 1 < 0x80 by norm_num)
          omega
        exact ih (n / 0x80) h2 b hb

theorem varuintEncode_lt (n : Nat) : ∀ b ∈ varuintEncode n, b < 256 :=
  varuintEncodeAux_lt n n (Nat.le_refl n)

theorem hexDigitVal_hexDigit (n : Nat) (h : n < 16) :
    hexDigitVal (hexDigit n) = some n := by
  interval_cases n <;> rfl

theorem hexDecode_encode (bytes : List Nat) (h : ∀ b ∈ bytes, b < 256) :
    hexDecode (hexEncode bytes) = some bytes := by
  induction bytes with
  | nil => rfl
  | cons b rest ih =>
    have hb : b < 256 := h b (List.mem_cons_self b rest)
    have hrest : ∀ x ∈ rest, x < 256 := fun x hx => h x (List.mem_cons_of_mem b hx)
    have hhi := hexDigitVal_hexDigit (b / 16) (by omega)
    have hlo := hexDigitVal_hexDigit (b % 16) (Nat.mod_lt _ (by norm_num))
    rw [hexEncode, hexDecode, hhi, hlo, ih hrest]
    simp only [Option.some.injEq, List.cons.injEq, and_true]
    omega

theorem multibaseDecode_encode (base : Base) (bytes : List Nat)
    (h : ∀ b ∈ bytes, b < 256) :
    multibaseDecode (multibaseEncode base bytes) = some (base, bytes) := by
  cases base <;>
    simp [multibaseEncode, multibaseDecode, Base.code, hexDecode_encode bytes h]

theorem Base.code_inj {a b : Base} (h : a.code = b.code) : a = b := by
  cases a <;> cases b <;> first | rfl | exact absurd h (by decide)

/-! ## Lemmas about the Varsig wire codec -/

theorem encode_into_set_string_encoding (v : Varsig) (b : Base) :
    (v.set_string_encoding b).encode_into = v.encode_into := by
  cases v <;> rfl

theorem set_string_encoding_set_string_encoding (v : Varsig) (a b : Base) :
    (v.set_string_encoding a).set_string_encoding b = v.set_string_encoding b := by
  cases v <;> rfl

theorem set_string_encoding_self (v : Varsig) :
    v.set_string_encoding v.string_encoding = v := by
  cases v <;> rfl

theorem wireOk_set_string_encoding (v : Varsig) (b : Base) :
    wireOk (v.set_string_encoding b) = wireOk v := by
  cases v <;> rfl

theorem signature_set_string_encoding (v : Varsig) (b : Base) :
    (v.set_string_encoding b).signature = v.signature := by
  cases v <;> rfl

theorem string_encoding_set_string_encoding (v : Varsig) (b : Base) :
    (v.set_string_encoding b).string_encoding = b := by
  cases v <;> rfl

theorem encode_into_lt (v : Varsig) (h : ∀ b ∈ v.signature, b < 256) :
    ∀ b ∈ v.encode_into, b < 256 := by
  cases v with
  | unknown s c se e ss sg =>
    intro b hb
    simp only [Varsig.encode_into, List.append_assoc, List.mem_append,
      Codec.encode_into] at hb
    rcases hb with hb | hb | hb | hb | hb
    · exact varuintEncode_lt s b hb
    · exact varuintEncode_lt c b hb
    · cases e with
      | none => simp at hb
      | some enc => exact varuintEncode_lt enc b (by simpa using hb)
    · rcases List.mem_flatten.mp hb with ⟨l, hl, hbl⟩
      rcases List.mem_map.mp hl with ⟨x, _, rfl⟩
      exact varuintEncode_lt x b hbl
    · exact h b (by simpa [Varsig.signature] using hb)
  | edDSA s se e sg =>
    intro b hb
    simp only [Varsig.encode_into, List.append_assoc, List.mem_append,
      Codec.encode_into] at hb
    rcases hb with hb | hb | hb | hb
    · exact varuintEncode_lt s b hb
    · exact varuintEncode_lt Codec.ed25519Pub b hb
    · exact varuintEncode_lt e b hb
    · exact h b (by simpa [Varsig.signature] using hb)

/-- Core decode-of-encode lemma: a structurally round-trippable value decodes
from its own encoding, with the recorded text base reset to the decoder's
default `Base16Lower` and the signature bytes returned as the remainder. -/
theorem try_decode_from_encode_into (v : Varsig) (h : wireOk v = true) :
    Varsig.try_decode_from v.encode_into =
      .ok (v.set_string_encoding Base.base16Lower, v.signature) := by
  cases v with
  | edDSA s se e sg =>
    simp only [wireOk, Bool.or_eq_true, beq_iff_eq] at h
    simp only [Varsig.encode_into, Codec.encode_into, List.append_assoc,
      Varsig.try_decode_from, Codec.try_decode_from, varuintDecode_encode]
    have hs : ¬ (s ≠ Codec.varsigv1 ∧ s ≠ Codec.varsigv2) := by tauto
    rw [if_neg hs]
    simp [varuintDecode_encode, Varsig.set_string_encoding, Varsig.signature]
  | unknown s c se e ss sg =>
    simp only [wireOk, Bool.and_eq_true, Bool.or_eq_true, Bool.not_eq_true',
      beq_iff_eq, beq_eq_false_iff_ne, List.isEmpty_iff] at h
    obtain ⟨⟨hc, hss⟩, hlayout⟩ := h
    subst hss
    rcases hlayout with ⟨hs, he⟩ | ⟨hs, he⟩
    · subst hs
      rw [Option.isNone_iff_eq_none] at he
      subst he
      simp only [Varsig.encode_into, Codec.encode_into, List.map_nil,
        List.flatten_nil, List.append_nil, List.nil_append, List.append_assoc,
        Varsig.try_decode_from, Codec.try_decode_from, varuintDecode_encode]
      have hs1 : ¬ (Codec.varsigv1 ≠ Codec.varsigv1 ∧
          Codec.varsigv1 ≠ Codec.varsigv2) := by tauto
      rw [if_neg hs1, if_neg hc]
      simp [Varsig.set_string_encoding, Varsig.signature]
    · subst hs
      rcases Option.isSome_iff_exists.mp he with ⟨enc, rfl⟩
      simp only [Varsig.encode_into, Codec.encode_into, List.map_nil,
        List.flatten_nil, List.append_nil, List.append_assoc,
        Varsig.try_decode_from, Codec.try_decode_from, varuintDecode_encode]
      have hs2 : ¬ (Codec.varsigv2 ≠ Codec.varsigv1 ∧
          Codec.varsigv2 ≠ Codec.varsigv2) := by tauto
      rw [if_neg hs2, if_neg hc]
      have : Codec.varsigv2 ≠ Codec.varsigv1 := by decide
      rw [if_neg this]
      simp [varuintDecode_encode, Varsig.set_string_encoding, Varsig.signature]

/-- Invariant of every successful decode: the recorded text base is the
default, the attribute list is empty, the signature is exactly the returned
remainder, the sigil is one of the two recognized sigils, and an `Unknown`
value's payload-encoding field is absent on the V1 layout and present on the
V2 layout. -/
theorem try_decode_from_ok_inv {bytes : List Nat} {v : Varsig} {rest : List Nat}
    (h : Varsig.try_decode_from bytes = .ok (v, rest)) :
    v.signature = rest ∧ v.signature_specific = [] ∧
    v.string_encoding = Base.base16Lower ∧
    (v.sigil = Codec.varsigv1 ∨ v.sigil = Codec.varsigv2) ∧
    (∀ sg c se e ss s, v = .unknown sg c se e ss s →
      (sg = Codec.varsigv1 → e = none) ∧
      (sg = Codec.varsigv2 → e.isSome = true)) := by
  unfold Varsig.try_decode_from at h
  split at h
  · exact absurd h (by simp)
  · rename_i sigilDecode sigil ptr heq
    split at h
    · exact absurd h (by simp)
    · rename_i hsig
      push_neg at hsig
      split at h
      · exact absurd h (by simp)
      · rename_i codecDecode codec ptr2 heq2
        split at h
        · split at h
          · exact absurd h (by simp)
          · rename_i encDecode enc ptr3 heq3
            injection h with h'
            injection h' with hv hrest
            subst hv
            subst hrest
            refine ⟨rfl, rfl, rfl, ?_, ?_⟩
            · by_cases h1 : sigil = Codec.varsigv1
              · exact Or.inl h1
              · exact Or.inr (hsig h1)
            · intro sg c se e ss s hv
              exact absurd hv (by simp)
        · rename_i hcodec
          split at h
          · rename_i hv1
            injection h with h'
            injection h' with hv hrest
            subst hv
            subst hrest
            refine ⟨rfl, rfl, rfl, Or.inl hv1, ?_⟩
            intro sg c se e ss s hv
            injection hv with h1 h2 h3 h4 h5 h6
            subst h1; subst h4
            exact ⟨fun _ => rfl, fun hx => absurd (hv1.symm.trans hx) (by decide)⟩
          · rename_i hv1
            split at h
            · exact absurd h (by simp)
            · rename_i encDecode enc ptr3 heq3
              injection h with h'
              injection h' with hv hrest
              subst hv
              subst hrest
              refine ⟨rfl, rfl, rfl, Or.inr (hsig hv1), ?_⟩
              intro sg c se e ss s hv
              injection hv with h1 h2 h3 h4 h5 h6
              subst h1; subst h4
              exact ⟨fun hx => absurd hx hv1, fun _ => rfl⟩

/-! ## Lemmas about the serde map visitor -/

/-- Invariant of the visitor loop: a successful run consumes exactly one entry
for every field slot that was still unset when the loop started, no entry for
a slot already set, and every version entry it saw carried 1 or 2. -/
theorem visitMapGo_ok_inv (entries : List de.Entry) :
    ∀ (s c m : Option Codec) (a g : Option (List Nat)) (v : de.VarsigDe),
    de.visitMapGo s c m a g entries = .ok v →
    entries.countP (fun e => de.Entry.isVersion e) = (if s.isSome then 0 else 1) ∧
    entries.countP (fun e => de.Entry.isCodec e) = (if c.isSome then 0 else 1) ∧
    entries.countP (fun e => de.Entry.isEncoding e) = (if m.isSome then 0 else 1) ∧
    entries.countP (fun e => de.Entry.isAttributes e) = (if a.isSome then 0 else 1) ∧
    entries.countP (fun e => de.Entry.isSignature e) = (if g.isSome then 0 else 1) ∧
    (∀ n, de.Entry.version n ∈ entries → n = 1 ∨ n = 2) := by
  induction entries with
  | nil =>
    intro s c m a g v h
    cases s with
    | none => simp [de.visitMapGo] at h
    | some s0 =>
      cases c with
      | none => simp [de.visitMapGo] at h
      | some c0 =>
        cases m with
        | none => simp [de.visitMapGo] at h
        | some m0 =>
          cases a with
          | none => simp [de.visitMapGo] at h
          | some a0 =>
            cases g with
            | none => simp [de.visitMapGo] at h
            | some g0 => simp
  | cons e rest ih =>
    intro s c m a g v h
    cases e with
    | version val =>
      cases s with
      | some s0 => simp [de.visitMapGo] at h
      | none =>
        rw [show de.visitMapGo none c m a g (.version val :: rest) =
            (if val = 1 then de.visitMapGo (some Codec.varsigv1) c m a g rest
             else if val = 2 then de.visitMapGo (some Codec.varsigv2) c m a g rest
             else .error (.custom "invlid Varsig version")) from rfl] at h
        by_cases hv1 : val = 1
        · rw [if_pos hv1] at h
          obtain ⟨p1, p2, p3, p4, p5, p6⟩ := ih _ _ _ _ _ _ h
          simp only [Option.isSome_some, if_true] at p1
          have nover := List.countP_eq_zero.mp p1
          refine ⟨?_, ?_, ?_, ?_, ?_, ?_⟩
          · simp only [List.countP_cons, p1]
            simp [de.Entry.isVersion]
          · simpa [List.countP_cons, de.Entry.isCodec] using p2
          · simpa [List.countP_cons, de.Entry.isEncoding] using p3
          · simpa [List.countP_cons, de.Entry.isAttributes] using p4
          · simpa [List.countP_cons, de.Entry.isSignature] using p5
          · intro n hn
            rcases List.mem_cons.mp hn with hn | hn
            · left
              injection hn with hn'
              omega
            · exact absurd (by simp [de.Entry.isVersion]) (nover _ hn)
        · rw [if_neg hv1] at h
          by_cases hv2 : val = 2
          · rw [if_pos hv2] at h
            obtain ⟨p1, p2, p3, p4, p5, p6⟩ := ih _ _ _ _ _ _ h
            simp only [Option.isSome_some, if_true] at p1
            have nover := List.countP_eq_zero.mp p1
            refine ⟨?_, ?_, ?_, ?_, ?_, ?_⟩
            · simp only [List.countP_cons, p1]
              simp [de.Entry.isVersion]
            · simpa [List.countP_cons, de.Entry.isCodec] using p2
            · simpa [List.countP_cons, de.Entry.isEncoding] using p3
            · simpa [List.countP_cons, de.Entry.isAttributes] using p4
            · simpa [List.countP_cons, de.Entry.isSignature] using p5
            · intro n hn
              rcases List.mem_cons.mp hn with hn | hn
              · right
                injection hn with hn'
                omega
              · exact absurd (by simp [de.Entry.isVersion]) (nover _ hn)
          · rw [if_neg hv2] at h
            exact Except.noConfusion h
    | codec c0 =>
      cases c with
      | some c1 => simp [de.visitMapGo] at h
      | none =>
        rw [show de.visitMapGo s none m a g (.codec c0 :: rest) =
            de.visitMapGo s (some c0) m a g rest from rfl] at h
        obtain ⟨p1, p2, p3, p4, p5, p6⟩ := ih _ _ _ _ _ _ h
        simp only [Option.isSome_some, if_true] at p2
        refine ⟨?_, ?_, ?_, ?_, ?_, ?_⟩
        · simpa [List.countP_cons, de.Entry.isVersion] using p1
        · simp only [List.countP_cons, p2]
          simp [de.Entry.isCodec]
        · simpa [List.countP_cons, de.Entry.isEncoding] using p3
        · simpa [List.countP_cons, de.Entry.isAttributes] using p4
        · simpa [List.countP_cons, de.Entry.isSignature] using p5
        · intro n hn
          rcases List.mem_cons.mp hn with hn | hn
          · exact absurd hn (by simp)
          · exact p6 n hn
    | encoding e0 =>
      cases m with
      | some m1 => simp [de.visitMapGo] at h
      | none =>
        rw [show de.visitMapGo s c none a g (.encoding e0 :: rest) =
            de.visitMapGo s c (some e0) a g rest from rfl] at h
        obtain ⟨p1, p2, p3, p4, p5, p6⟩ := ih _ _ _ _ _ _ h
        simp only [Option.isSome_some, if_true] at p3
        refine ⟨?_, ?_, ?_, ?_, ?_, ?_⟩
        · simpa [List.countP_cons, de.Entry.isVersion] using p1
        · simpa [List.countP_cons, de.Entry.isCodec] using p2
        · simp only [List.countP_cons, p3]
          simp [de.Entry.isEncoding]
        · simpa [List.countP_cons, de.Entry.isAttributes] using p4
        · simpa [List.countP_cons, de.Entry.isSignature] using p5
        · intro n hn
          rcases List.mem_cons.mp hn with hn | hn
          · exact absurd hn (by simp)
          · exact p6 n hn
    | attributes a0 =>
      cases a with
      | some a1 => simp [de.visitMapGo] at h
      | none =>
        rw [show de.visitMapGo s c m none g (.attributes a0 :: rest) =
            de.visitMapGo s c m (some a0) g rest from rfl] at h
        obtain ⟨p1, p2, p3, p4, p5, p6⟩ := ih _ _ _ _ _ _ h
        simp only [Option.isSome_some, if_true] at p4
        refine ⟨?_, ?_, ?_, ?_, ?_, ?_⟩
        · simpa [List.countP_cons, de.Entry.isVersion] using p1
        · simpa [List.countP_cons, de.Entry.isCodec] using p2
        · simpa [List.countP_cons, de.Entry.isEncoding] using p3
        · simp only [List.countP_cons, p4]
          simp [de.Entry.isAttributes]
        · simpa [List.countP_cons, de.Entry.isSignature] using p5
        · intro n hn
          rcases List.mem_cons.mp hn with hn | hn
          · exact absurd hn (by simp)
          · exact p6 n hn
    | signature g0 =>
      cases g with
      | some g1 => simp [de.visitMapGo] at h
      | none =>
        rw [show de.visitMapGo s c m a none (.signature g0 :: rest) =
            de.visitMapGo s c m a (some g0) rest from rfl] at h
        obtain ⟨p1, p2, p3, p4, p5, p6⟩ := ih _ _ _ _ _ _ h
        simp only [Option.isSome_some, if_true] at p5
        refine ⟨?_, ?_, ?_, ?_, ?_, ?_⟩
        · simpa [List.countP_cons, de.Entry.isVersion] using p1
        · simpa [List.countP_cons, de.Entry.isCodec] using p2
        · simpa [List.countP_cons, de.Entry.isEncoding] using p3
        · simpa [List.countP_cons, de.Entry.isAttributes] using p4
        · simp only [List.countP_cons, p5]
          simp [de.Entry.isSignature]
        · intro n hn
          rcases List.mem_cons.mp hn with hn | hn
          · exact absurd hn (by simp)
          · exact p6 n hn

/-! ## Claims -/

/-- Claim C1, counterexample: the byte round trip fails as universally stated.
A valid `Unknown` value carrying one attribute code (the Keccak256 code, as in
the source's own eip191 test) decodes from its own encoding to a different
value: the decoder never reads attribute codes, so the attribute byte is
absorbed into the signature. -/
theorem c1_byte_round_trip_fails :
    Varsig.try_decode_from (Varsig.encode_into (.unknown Codec.varsigv2
        Codec.secp256K1Pub .base16Lower (some Codec.raw) [Codec.keccak256] [])) =
      .ok (.unknown Codec.varsigv2 Codec.secp256K1Pub .base16Lower
        (some Codec.raw) [] [Codec.keccak256], [Codec.keccak256]) ∧
    Varsig.unknown Codec.varsigv2 Codec.secp256K1Pub .base16Lower
        (some Codec.raw) [] [Codec.keccak256] ≠
      Varsig.unknown Codec.varsigv2 Codec.secp256K1Pub .base16Lower
        (some Codec.raw) [Codec.keccak256] [] :=
  ⟨rfl, by decide⟩

/-- Claim C1, amended: decoding the bytes produced by encode yields the
original value (with the signature bytes as the returned remainder) for every
Varsig whose attribute list is empty, whose recorded text base is the
decoder's default `Base16Lower`, whose sigil is V1 or V2, whose `Unknown` key
codec is not the Ed25519 code, and whose payload-encoding field is absent
exactly on the V1 `Unknown` layout. -/
theorem c1_byte_round_trip_amended (v : Varsig) (h : wireOk v = true)
    (hse : v.string_encoding = Base.base16Lower) :
    Varsig.try_decode_from v.encode_into = .ok (v, v.signature) := by
  have hrt := try_decode_from_encode_into v h
  rw [← hse, set_string_encoding_self] at hrt
  exact hrt

/-- Claim C1, witness for the amended round trip at a concrete `EdDSA`
value. -/
theorem c1_byte_round_trip_amended_witness :
    wireOk (Varsig.edDSA Codec.varsigv2 .base16Lower Codec.raw [1, 2, 3]) = true ∧
    Varsig.try_decode_from (Varsig.encode_into
        (.edDSA Codec.varsigv2 .base16Lower Codec.raw [1, 2, 3])) =
      .ok (.edDSA Codec.varsigv2 .base16Lower Codec.raw [1, 2, 3], [1, 2, 3]) :=
  ⟨by decide, c1_byte_round_trip_amended
    (.edDSA Codec.varsigv2 .base16Lower Codec.raw [1, 2, 3]) (by decide) rfl⟩

/-- Claim C2, counterexample: the text round trip fails as universally
stated.  The same attribute-carrying `Unknown` value as in the byte
counterexample decodes from its own text encoding to a different value. -/
theorem c2_text_round_trip_fails :
    Varsig.try_from_string (Varsig.to_string (.unknown Codec.varsigv2
        Codec.secp256K1Pub .base16Lower (some Codec.raw) [Codec.keccak256] [])) =
      .ok (.unknown Codec.varsigv2 Codec.secp256K1Pub .base16Lower
        (some Codec.raw) [] [Codec.keccak256]) ∧
    Varsig.unknown Codec.varsigv2 Codec.secp256K1Pub .base16Lower
        (some Codec.raw) [] [Codec.keccak256] ≠
      Varsig.unknown Codec.varsigv2 Codec.secp256K1Pub .base16Lower
        (some Codec.raw) [Codec.keccak256] [] :=
  ⟨rfl, by decide⟩

/-- Claim C2, amended: for every Varsig satisfying the byte-round-trip side
conditions (empty attribute list, recognized sigil, non-Ed25519 `Unknown`
codec, layout-matching payload-encoding presence) whose signature bytes are
genuine bytes, the text round trip reproduces the value at every recorded
base; encoding at two different bases yields two different strings, and the
two decoded values agree after aligning the recorded text base (which is the
only field in which they can differ). -/
theorem c2_text_round_trip_amended (v : Varsig) (b₁ b₂ : Base)
    (h : wireOk v = true) (hsig : ∀ x ∈ v.signature, x < 256) (hb : b₁ ≠ b₂) :
    Varsig.try_from_string (Varsig.to_string v) = .ok v ∧
    Varsig.to_string (v.set_string_encoding b₁) ≠
      Varsig.to_string (v.set_string_encoding b₂) ∧
    Varsig.try_from_string (Varsig.to_string (v.set_string_encoding b₁)) =
      .ok (v.set_string_encoding b₁) ∧
    (v.set_string_encoding b₁).set_string_encoding b₂ =
      v.set_string_encoding b₂ := by
  have key : ∀ w : Varsig, wireOk w = true → (∀ x ∈ w.signature, x < 256) →
      Varsig.try_from_string (Varsig.to_string w) = .ok w := by
    intro w hw hs
    have h1 : multibaseDecode (Varsig.to_string w) =
        some (w.string_encoding, w.encode_into) :=
      multibaseDecode_encode _ _ (encode_into_lt w hs)
    have h2 := try_decode_from_encode_into w hw
    unfold Varsig.try_from_string
    simp only [h1, h2]
    rw [set_string_encoding_set_string_encoding, set_string_encoding_self]
  refine ⟨key v h hsig, ?_, ?_, ?_⟩
  · intro heq
    apply hb
    apply Base.code_inj
    have hhead := congrArg List.head? heq
    simpa [Varsig.to_string, multibaseEncode,
      string_encoding_set_string_encoding] using hhead
  · exact key (v.set_string_encoding b₁)
      (by rw [wireOk_set_string_encoding]; exact h)
      (by rw [signature_set_string_encoding]; exact hsig)
  · exact set_string_encoding_set_string_encoding v b₁ b₂

/-- Claim C2, witness for the amended text round trip at a concrete `EdDSA`
value recorded at base58btc. -/
theorem c2_text_round_trip_amended_witness :
    wireOk (Varsig.edDSA Codec.varsigv2 .base58Btc Codec.raw [0xAB]) = true ∧
    Varsig.try_from_string (Varsig.to_string
        (.edDSA Codec.varsigv2 .base58Btc Codec.raw [0xAB])) =
      .ok (.edDSA Codec.varsigv2 .base58Btc Codec.raw [0xAB]) :=
  ⟨by decide,
    (c2_text_round_trip_amended (.edDSA Codec.varsigv2 .base58Btc Codec.raw [0xAB])
      .base16Lower .base64 (by decide) (by decide) (by decide)).1⟩

/-- Claim C3, counterexample: on an input whose sigil decodes to V2 the
signature is NOT read as a varuint length followed by that many bytes.  For
the input `[V2 sigil][0xED 0x01][0x55][0x01][0xAB][0xCD]` the claim predicts
signature `[0xAB]` with remainder `[0xCD]`; the decoder instead takes the
whole tail `[0x01, 0xAB, 0xCD]` as the signature and also returns it as the
remainder. -/
theorem c3_v2_varbytes_fails :
    Varsig.try_decode_from
        [Codec.varsigv2, 0xED, 0x01, Codec.raw, 0x01, 0xAB, 0xCD] =
      .ok (.edDSA Codec.varsigv2 .base16Lower Codec.raw [0x01, 0xAB, 0xCD],
        [0x01, 0xAB, 0xCD]) ∧
    Varsig.signature (.edDSA Codec.varsigv2 .base16Lower Codec.raw
        [0x01, 0xAB, 0xCD]) ≠ [0xAB] :=
  ⟨rfl, by decide⟩

/-- Claim C3, amended: on every successful decode (V2 and V1 alike) the
signature is the entire remaining buffer after the header — no varuint length
prefix is read — the returned remainder is that same signature slice, and no
attribute codes are ever read (the decoded attribute list is always empty). -/
theorem c3_decode_layout_amended (bytes : List Nat) (v : Varsig)
    (rest : List Nat) (h : Varsig.try_decode_from bytes = .ok (v, rest)) :
    v.signature = rest ∧ v.signature_specific = [] :=
  ⟨(try_decode_from_ok_inv h).1, (try_decode_from_ok_inv h).2.1⟩

/-- Claim C3, witness at a concrete V2 EdDSA input. -/
theorem c3_decode_layout_amended_witness :
    Varsig.try_decode_from [57, 237, 1, 85, 9] =
      .ok (.edDSA Codec.varsigv2 .base16Lower Codec.raw [9], [9]) ∧
    (Varsig.signature (.edDSA Codec.varsigv2 .base16Lower Codec.raw [9]) = [9] ∧
     Varsig.signature_specific
       (.edDSA Codec.varsigv2 .base16Lower Codec.raw [9]) = []) :=
  ⟨rfl, c3_decode_layout_amended [57, 237, 1, 85, 9]
    (.edDSA Codec.varsigv2 .base16Lower Codec.raw [9]) [9] rfl⟩

/-- Claim C4: evaluation of the code at the claim's scenario.  `newv2`
initializes the builder's sigil to `Codec::Varsigv1`, so the built `EdDSA`
value carries the V1 sigil — contradicting the function's own name — and its
encoding is `[V1 sigil][0xED 0x01][0x55]` followed directly by the 64 zero
signature bytes, with no varuint length prefix. -/
theorem c4_newv2_builds_v1_sigil :
    Builder.newv2.sigil = Codec.varsigv1 ∧
    (((Builder.newv2.with_codec Codec.ed25519Pub).with_encoding
        Codec.raw).with_signature_bytes (List.replicate 64 0)).build =
      .edDSA Codec.varsigv1 .base16Lower Codec.raw (List.replicate 64 0) ∧
    Varsig.encode_into ((((Builder.newv2.with_codec
        Codec.ed25519Pub).with_encoding Codec.raw).with_signature_bytes
        (List.replicate 64 0)).build) =
      [Codec.varsigv1, 0xED, 0x01, Codec.raw] ++ List.replicate 64 0 :=
  ⟨rfl, rfl, rfl⟩

/-- Claim C5, counterexample: the factory applied to an Ed25519 signature
object yields a varsig whose sigil is V1, not V2 — it calls `Builder::newv1`. -/
theorem c5_external_signature_v2_fails :
    Varsig.try_from_signature ⟨Algorithm.ed25519, [7, 7]⟩ =
      .ok (.edDSA Codec.varsigv1 .base16Lower Codec.raw [7, 7]) ∧
    Varsig.sigil (.edDSA Codec.varsigv1 .base16Lower Codec.raw [7, 7]) ≠
      Codec.varsigv2 :=
  ⟨rfl, by decide⟩

/-- Claim C5, amended: for every external signature object whose algorithm is
Ed25519 the factory succeeds and yields a V1 `EdDSA` varsig with payload
encoding defaulted to the raw code and the signature bytes taken from the
object; for every other algorithm it fails with `UnsupportedAlgorithm`
carrying that algorithm's name. -/
theorem c5_external_signature_amended (sig : Signature) :
    (sig.algorithm = Algorithm.ed25519 ∧
      Varsig.try_from_signature sig =
        .ok (.edDSA Codec.varsigv1 .base16Lower Codec.raw sig.bytes)) ∨
    (sig.algorithm ≠ Algorithm.ed25519 ∧
      Varsig.try_from_signature sig =
        .error (.unsupportedAlgorithm sig.algorithm.name)) := by
  by_cases h : sig.algorithm = Algorithm.ed25519
  · left
    refine ⟨h, ?_⟩
    unfold Varsig.try_from_signature
    rw [if_pos h]
    rfl
  · right
    refine ⟨h, ?_⟩
    unfold Varsig.try_from_signature
    rw [if_neg h]

/-- Claim C6: decoding an empty buffer fails with the propagated primitive
(structural) error, and decoding any buffer whose first varuint decodes to a
codec other than the V1/V2 sigils fails with `MissingSigil`; a failing decode
returns an error value, never a default. -/
theorem c6_malformed_input_rejected :
    Varsig.try_decode_from ([] : List Nat) = .error .multicodec ∧
    ∀ (bytes : List Nat) (c : Codec) (rest : List Nat),
      Codec.try_decode_from bytes = some (c, rest) →
      c ≠ Codec.varsigv1 → c ≠ Codec.varsigv2 →
      Varsig.try_decode_from bytes = .error .missingSigil := by
  refine ⟨rfl, ?_⟩
  intro bytes c rest hdec h1 h2
  unfold Varsig.try_decode_from
  rw [hdec]
  simp [h1, h2]

/-- Claim C6, witness: the buffer `[0]` decodes its first varuint to the
identity codec, which is not a sigil, and decoding fails with
`MissingSigil`. -/
theorem c6_malformed_input_rejected_witness :
    Codec.try_decode_from [0] = some (0, []) ∧
    (0 : Codec) ≠ Codec.varsigv1 ∧ (0 : Codec) ≠ Codec.varsigv2 ∧
    Varsig.try_decode_from [0] = .error .missingSigil :=
  ⟨rfl, by decide, by decide,
    c6_malformed_input_rejected.2 [0] 0 [] rfl (by decide) (by decide)⟩

/-- Claim C7: `build` yields the `EdDSA` variant exactly when the key codec is
the Ed25519 public-key code — in which case any supplied attributes are
dropped, the built value's attribute list being empty — and the `Unknown`
variant (carrying the supplied attributes) for every other key codec. -/
theorem c7_build_fast_path (b : Builder) :
    (b.codec = Codec.ed25519Pub ∧
      b.build = .edDSA b.sigil (b.string_encoding.getD Base.base16Lower)
        b.encoding b.signature ∧
      Varsig.signature_specific b.build = []) ∨
    (b.codec ≠ Codec.ed25519Pub ∧
      b.build = .unknown b.sigil b.codec
        (b.string_encoding.getD Base.base16Lower) (some b.encoding)
        b.signature_specific b.signature) := by
  by_cases h : b.codec = Codec.ed25519Pub
  · left
    refine ⟨h, ?_, ?_⟩ <;> simp [Builder.build, h, Varsig.signature_specific]
  · right
    exact ⟨h, by simp [Builder.build, h]⟩

/-- Claim C8, counterexample: a legacy V1 `Unknown` layout decoded without an
explicit payload-encoding code yields a value whose payload encoding is
absent (`none`), not the raw code — no default is substituted. -/
theorem c8_raw_default_fails :
    Varsig.try_decode_from [Codec.varsigv1, 0x00] =
      .ok (.unknown Codec.varsigv1 0 .base16Lower none [] [], []) ∧
    Varsig.encoding (.unknown Codec.varsigv1 0 .base16Lower none [] []) ≠
      some Codec.raw :=
  ⟨rfl, by decide⟩

/-- Claim C8, amended: every decoded V1 `Unknown` value has an absent payload
encoding — decoding substitutes no default at all — while every decoded V2
`Unknown` value carries an explicit payload-encoding code read from the
wire. -/
theorem c8_encoding_absent_amended (bytes : List Nat) (sg c : Codec)
    (se : Base) (e : Option Codec) (ss : List Codec) (s rest : List Nat)
    (h : Varsig.try_decode_from bytes = .ok (.unknown sg c se e ss s, rest)) :
    (sg = Codec.varsigv1 → e = none) ∧
    (sg = Codec.varsigv2 → e.isSome = true) :=
  (try_decode_from_ok_inv h).2.2.2.2 sg c se e ss s rfl

/-- Claim C8, witness at the two-byte V1 `Unknown` input. -/
theorem c8_encoding_absent_amended_witness :
    Varsig.try_decode_from [56, 0] =
      .ok (.unknown 56 0 .base16Lower none [] [], []) ∧
    (none : Option Codec) = none :=
  ⟨rfl, (c8_encoding_absent_amended [56, 0] 56 0 .base16Lower none [] [] []
    rfl).1 rfl⟩

/-- Claim C9: the human-readable serde deserializer succeeds only when each of
the five required fields (`version`, `codec`, `encoding`, `attributes`,
`signature`) occurs exactly once in the input map and every decoded version
value is 1 or 2; a duplicate or missing field, or a version outside {1, 2},
makes it fail. -/
theorem c9_visit_map_requires_exactly_once (entries : List de.Entry)
    (v : de.VarsigDe) (h : de.visit_map entries = .ok v) :
    entries.countP (fun e => de.Entry.isVersion e) = 1 ∧
    entries.countP (fun e => de.Entry.isCodec e) = 1 ∧
    entries.countP (fun e => de.Entry.isEncoding e) = 1 ∧
    entries.countP (fun e => de.Entry.isAttributes e) = 1 ∧
    entries.countP (fun e => de.Entry.isSignature e) = 1 ∧
    (∀ n, de.Entry.version n ∈ entries → n = 1 ∨ n = 2) := by
  have hinv := visitMapGo_ok_inv entries none none none none none v h
  simpa using hinv

/-- Claim C9, witness: a well-formed five-field map deserializes successfully
and indeed contains each field exactly once. -/
theorem c9_visit_map_witness :
    de.visit_map [.version 2, .codec 237, .encoding 85, .attributes [],
        .signature []] = .ok (.edDSA Codec.varsigv2 Codec.raw []) ∧
    List.countP (fun e => de.Entry.isVersion e)
      [de.Entry.version 2, .codec 237, .encoding 85, .attributes [],
        .signature []] = 1 :=
  ⟨rfl, (c9_visit_map_requires_exactly_once
    [.version 2, .codec 237, .encoding 85, .attributes [], .signature []]
    (.edDSA Codec.varsigv2 Codec.raw []) rfl).1⟩

/-- Claim C10: `set_string_encoding` changes only the recorded text base —
sigil, key codec, payload encoding, attribute list and signature are
untouched — and the wire bytes produced by `encode_into` are identical before
and after the change. -/
theorem c10_set_string_encoding_frame (v : Varsig) (b : Base) :
    (v.set_string_encoding b).sigil = v.sigil ∧
    (v.set_string_encoding b).codec = v.codec ∧
    (v.set_string_encoding b).encoding = v.encoding ∧
    (v.set_string_encoding b).signature_specific = v.signature_specific ∧
    (v.set_string_encoding b).signature = v.signature ∧
    (v.set_string_encoding b).string_encoding = b ∧
    (v.set_string_encoding b).encode_into = v.encode_into := by
  cases v <;> exact ⟨rfl, rfl, rfl, rfl, rfl, rfl, rfl⟩

end varsig
